import Mathlib

/-!
Shallow embedding of the telemetry-to-position pipeline of the
League-of-Legends player-position heatmap generator
(`heatmap/preprocessing.py` and `heatmap/processing.py`).

Modelling conventions:
* A pandas cell that may be NaN is an `Option`; a missing value is `none`.
* Numeric cell values are exact rationals (`ℚ`).  The raw positions in the
  source are integers and the normalization is a fixed rational affine map,
  so `ℚ` is the exact model of the arithmetic (IEEE rounding is not modelled).
* A `MatchTimeline` document is modelled with its two relevant regions as
  `Option`s: `pd.json_normalize(..., record_path=[...])` raises `KeyError`
  when the region is absent, which the embedding mirrors with
  `Except.error`.
* `Frame.entries` is the flattened per-frame metric tree exactly as
  `pd.json_normalize` flattens it: a list of (dotted key, scalar value)
  pairs, keys unique per frame.  Non-scalar bookkeeping columns of the
  source frame table (`metadata`, `events`) never match the 4-segment
  extraction regex and are elided from the model.
* Row order of the final table is not modelled (pandas sorts the pivot
  index; no verified property mentions order).
-/

namespace Heatmap

/-! ### The extraction regex

`preprocessing.py` line 94 / `processing.py` line 58:
`df["variable"].str.extract("(?P<frames>\w+)\.(?P<participantId>\w+)\.(?P<metric>\w+)\.(?P<metric2>.+)")`.
`Series.str.extract` performs an (unanchored) `re.search` of the pattern.
`matchAt` attempts the pattern at the head of a character list; because
`\w+` is greedy and is always followed by `\.` (a non-word character),
maximal munch is exact and no backtracking arises.  `searchExtract` tries
every start position left to right, as `re.search` does.  The final group
`.+` matches greedily up to (excluding) a newline or the end of string. -/

/-- Python regex `\w` on the ASCII keys of this domain: letters, digits, `_`. -/
def isWordChar (c : Char) : Bool := c.isAlphanum || c == '_'

/-- One step `\w+\.` of the pattern: split off a nonempty maximal word-char
prefix, then require a literal dot.  Returns the prefix and the rest. -/
def eatSeg (cs : List Char) : Option (List Char × List Char) :=
  match cs.takeWhile isWordChar, cs.dropWhile isWordChar with
  | p :: ps, '.' :: t => some (p :: ps, t)
  | _, _ => none

/-- Attempt `(\w+)\.(\w+)\.(\w+)\.(.+)` at the start of `cs`. -/
def matchAt (cs : List Char) : Option (String × String × String × String) :=
  match eatSeg cs with
  | none => none
  | some (p0, t0) =>
    match eatSeg t0 with
    | none => none
    | some (p1, t1) =>
      match eatSeg t1 with
      | none => none
      | some (p2, t2) =>
        match t2.takeWhile (fun c => c != '\n') with
        | [] => none
        | d :: ds => some (String.mk p0, String.mk p1, String.mk p2, String.mk (d :: ds))

/-- `re.search`: try `matchAt` at each start position, leftmost first. -/
def searchExtract : List Char → Option (String × String × String × String)
  | [] => none
  | c :: cs =>
    match matchAt (c :: cs) with
    | some r => some r
    | none => searchExtract cs

/-- The `str.extract` call applied to one melted column name. -/
def extractParts (s : String) : Option (String × String × String × String) :=
  searchExtract s.toList

/-! ### Data model -/

/-- One roster entry of `info.participants`; either field may be absent
from the source JSON (pandas then fills NaN). -/
structure PartEntry where
  participantId : Option Int
  puuid : Option String
  deriving DecidableEq

/-- One frame of `info.frames`: its millisecond timestamp and the flattened
(dotted key, scalar value) pairs of its metric tree. -/
structure Frame where
  timestamp : Int
  entries : List (String × ℚ)
  deriving DecidableEq

/-- One `MatchTimeline` document.  `participants` models `info.participants`
and `frames` models `info.frames`; `none` means the region is missing and
`pd.json_normalize` raises.  `matchId` is `metadata.matchId`. -/
structure TimelineDoc where
  matchId : String
  participants : Option (List PartEntry)
  frames : Option (List Frame)
  deriving DecidableEq

/-- A row of `table_participant_id`'s output (the participant index). -/
structure IndexRow where
  participantId : String
  puuid : Option String
  matchId : String
  deriving DecidableEq

/-- A row of the melted long frame table (`df.melt(["timestamp","matchId"])`). -/
structure MeltRow where
  timestamp : Int
  matchId : String
  varName : String
  value : Option ℚ
  deriving DecidableEq

/-- A flattened event row after the regex extraction and
`dropna(subset=["frames"])` (columns of line 95 / line 59). -/
structure FlatRow where
  timestamp : Int
  matchId : String
  frames : String
  participantId : String
  metric : String
  metric2 : String
  value : Option ℚ
  deriving DecidableEq

/-- A `FlatRow` after the left merge with the participant index:
`puuid` is `none` when the join key had no index entry (NaN). -/
structure JoinedRow where
  timestamp : Int
  matchId : String
  frames : String
  participantId : String
  metric : String
  metric2 : String
  value : Option ℚ
  puuid : Option String
  deriving DecidableEq

/-- Pivot index of line 65: `(puuid, matchId, timestamp)`. -/
abbrev PivotKey := Option String × String × Int

/-- A row of the final table returned by `get_user_position`: the `.loc`
selection drops the `puuid` level, leaving `(matchId, timestamp)` plus the
two (possibly NaN) normalized coordinates. -/
structure OutRow where
  matchId : String
  timestamp : Int
  x : Option ℚ
  y : Option ℚ
  deriving DecidableEq

/-- First-occurrence deduplication, as pandas keeps the first occurrence of
each column label / index key. -/
def dedupFirst {α : Type} [DecidableEq α] (l : List α) : List α :=
  l.foldl (fun acc a => if a ∈ acc then acc else acc ++ [a]) []

/-! ### Participant index builder (`preprocessing.table_participant_id`) -/

/-- The records produced by
`pd.json_normalize(timeline, record_path=["info","participants"], meta=["metadata"])`,
each paired with its document's `matchId`. -/
def indexEntriesOf (timeline : List TimelineDoc) : List (String × PartEntry) :=
  timeline.flatMap (fun d => (d.participants.getD []).map (fun e => (d.matchId, e)))

/-- Whether every roster entry carries `participantId` (then the pandas
column has integer dtype; otherwise it is promoted to float). -/
def allPidPresent (timeline : List TimelineDoc) : Bool :=
  (indexEntriesOf timeline).all (fun e => e.2.participantId.isSome)

/-- Whether any roster entry carries `participantId` (otherwise the column
does not exist and `df["participantId"]` raises `KeyError`). -/
def anyPidPresent (timeline : List TimelineDoc) : Bool :=
  (indexEntriesOf timeline).any (fun e => e.2.participantId.isSome)

/-- `df["participantId"].astype('str')` on one cell.  On an integer column
`1` renders as `"1"`; if any entry lacks the field the column is float64
and `1.0` renders as `"1.0"`, while NaN renders as `"nan"`. -/
def pidStr (intDtype : Bool) : Option Int → String
  | some n => if intDtype then toString n else toString n ++ ".0"
  | none => "nan"

/-- The rows of the participant index (lines 38-45 of preprocessing.py). -/
def indexRowsOf (timeline : List TimelineDoc) : List IndexRow :=
  (indexEntriesOf timeline).map
    (fun e => ⟨pidStr (allPidPresent timeline) e.2.participantId, e.2.puuid, e.1⟩)

/-- `preprocessing.table_participant_id`.  `json_normalize` raises
`KeyError` when a document lacks `info.participants`; the
`astype` line raises `KeyError` when no entry at all carries
`participantId` (the column then does not exist). -/
def table_participant_id (timeline : List TimelineDoc) : Except String (List IndexRow) :=
  if timeline.all (fun d => d.participants.isSome) then
    if anyPidPresent timeline then Except.ok (indexRowsOf timeline)
    else Except.error "KeyError: participantId"
  else Except.error "KeyError: info.participants"

/-! ### Frame flattener (`preprocessing.table_frames`, inlined at
processing.py lines 54-61) -/

/-- The frame records of
`pd.json_normalize(timelines, record_path=["info","frames"], meta=["metadata"])`:
per document, per frame, the timestamp, the matchId and the flattened
entries. -/
def frameRowsOf (timeline : List TimelineDoc) : List (Int × String × List (String × ℚ)) :=
  timeline.flatMap (fun d => (d.frames.getD []).map (fun f => (f.timestamp, d.matchId, f.entries)))

/-- The melted value columns: the union of all flattened keys across all
frames, in first-seen order (the columns of the normalized frame table). -/
def meltVarsOf (timeline : List TimelineDoc) : List String :=
  dedupFirst ((frameRowsOf timeline).flatMap (fun r => r.2.2.map Prod.fst))

/-- The cell of one frame row under one column: `none` is the NaN that
`json_normalize` fills when the frame lacks the key. -/
def lookupVal (entries : List (String × ℚ)) (v : String) : Option ℚ :=
  (entries.find? (fun e => decide (e.1 = v))).map Prod.snd

/-- `df.melt(["timestamp","matchId"])`: one row per (column, frame row)
pair, column-major as pandas stacks them. -/
def meltRowsOf (timeline : List TimelineDoc) : List MeltRow :=
  (meltVarsOf timeline).flatMap (fun v =>
    (frameRowsOf timeline).map (fun r => ⟨r.1, r.2.1, v, lookupVal r.2.2 v⟩))

/-- The regex extraction plus `dropna(subset=["frames"])`: melted rows whose
name matches become flat events, the rest are dropped.  The final
`astype('str')` on `participantId` is a no-op on the extracted strings. -/
def flatRowsOf (timeline : List TimelineDoc) : List FlatRow :=
  (meltRowsOf timeline).filterMap (fun r =>
    match extractParts r.varName with
    | some (f, pid, m, m2) => some ⟨r.timestamp, r.matchId, f, pid, m, m2, r.value⟩
    | none => none)

/-- `preprocessing.table_frames` (lines 91-98): the same flattening, with
`json_normalize` raising when a document lacks `info.frames`. -/
def table_frames (timelines : List TimelineDoc) : Except String (List FlatRow) :=
  if timelines.all (fun d => d.frames.isSome) then Except.ok (flatRowsOf timelines)
  else Except.error "KeyError: info.frames"

/-! ### Event identity joiner (processing.py line 63) -/

/-- The index rows matching one event's join key
`(participantId, matchId)`. -/
def matchesOf (idx : List IndexRow) (fr : FlatRow) : List IndexRow :=
  idx.filter (fun ir => decide (ir.participantId = fr.participantId ∧ ir.matchId = fr.matchId))

/-- Attach an identity (possibly NaN) to a flat event. -/
def joinWith (fr : FlatRow) (pu : Option String) : JoinedRow :=
  ⟨fr.timestamp, fr.matchId, fr.frames, fr.participantId, fr.metric, fr.metric2, fr.value, pu⟩

/-- `df.merge(df_participantId, "left", on=["participantId","matchId"])`:
every left row is kept; with no match its `puuid` is NaN, with several
matches it is repeated once per match. -/
def mergeRows (flat : List FlatRow) (idx : List IndexRow) : List JoinedRow :=
  flat.flatMap (fun fr =>
    if (matchesOf idx fr).isEmpty then [joinWith fr none]
    else (matchesOf idx fr).map (fun ir => joinWith fr ir.puuid))

/-! ### Position pivot, selection and normalization
(processing.py lines 65-71) -/

/-- The joined event table of line 63 (the participant index argument is
`indexRowsOf`, which is the value `table_participant_id` returns whenever
it succeeds). -/
def joinedRowsOf (timeline : List TimelineDoc) : List JoinedRow :=
  mergeRows (flatRowsOf timeline) (indexRowsOf timeline)

/-- `df[df["metric"]=="position"]`. -/
def positionRowsOf (timeline : List TimelineDoc) : List JoinedRow :=
  (joinedRowsOf timeline).filter (fun r => decide (r.metric = "position"))

/-- The pivot index triple of one position row. -/
def pivotKeyOf (r : JoinedRow) : PivotKey := (r.puuid, r.matchId, r.timestamp)

/-- The pivot (index, column) pair of one position row; `DataFrame.pivot`
raises `ValueError` when these are not pairwise distinct. -/
def pivotKeyCol (r : JoinedRow) : PivotKey × String := (pivotKeyOf r, r.metric2)

/-- The distinct pivot index keys. -/
def pivotKeysOf (timeline : List TimelineDoc) : List PivotKey :=
  dedupFirst ((positionRowsOf timeline).map pivotKeyOf)

/-- The pivot columns: the distinct `metric2` values of position rows. -/
def pivotColsOf (timeline : List TimelineDoc) : List String :=
  dedupFirst ((positionRowsOf timeline).map (fun r => r.metric2))

/-- One pivot cell: the value of the (unique, once the duplicate check
passed) position row with this key and column, NaN when absent. -/
def cellOf (positions : List JoinedRow) (k : PivotKey) (c : String) : Option ℚ :=
  match positions.find? (fun r => decide (pivotKeyOf r = k ∧ r.metric2 = c)) with
  | some r => r.value
  | none => none

/-- The pivot keys kept by `df_position.loc[puuid]` (line 67). -/
def selKeysOf (timeline : List TimelineDoc) (p : String) : List PivotKey :=
  (pivotKeysOf timeline).filter (fun k => decide (k.1 = some p))

/-- `preprocessing.norma_x` (line 100-102). -/
def norma_x (X : ℚ) : ℚ := 10 + ((X - 335) * (800 - 0)) / (14700 - 0)

/-- `preprocessing.norma_y` (line 104-106). -/
def norma_y (Y : ℚ) : ℚ := 10 + ((Y - 335) * (800 - 0)) / (14700 - 0)

/-- One output row: the `.loc` selection drops the `puuid` level and lines
69-70 apply the normalizers cellwise (NaN maps to NaN). -/
def outRowOf (timeline : List TimelineDoc) (k : PivotKey) : OutRow :=
  ⟨k.2.1, k.2.2,
    (cellOf (positionRowsOf timeline) k "x").map norma_x,
    (cellOf (positionRowsOf timeline) k "y").map norma_y⟩

/-- The pipeline stages of `get_user_position` after the participant index
succeeded (lines 54-71 of processing.py).  Error branches mirror, in
evaluation order, the pandas exceptions: the frames `json_normalize`
`KeyError`, the pivot duplicate `ValueError`, the `.loc` `KeyError` when
the target is absent from the pivot index, and the column `KeyError` of
lines 69-70. -/
def gupBody (timeline : List TimelineDoc) (puuid : String) :
    Except String (List OutRow) :=
  if timeline.all (fun d => d.frames.isSome) then
    if ((positionRowsOf timeline).map pivotKeyCol).Nodup then
      if (selKeysOf timeline puuid).isEmpty then
        Except.error "KeyError: puuid not in pivot index"
      else if ("x" ∈ pivotColsOf timeline ∧ "y" ∈ pivotColsOf timeline) then
        Except.ok ((selKeysOf timeline puuid).map (outRowOf timeline))
      else Except.error "KeyError: missing x or y column"
    else Except.error "ValueError: Index contains duplicate entries, cannot reshape"
  else Except.error "KeyError: info.frames"

/-- `processing.get_user_position`, with retrieval externalized per the
spec's library contract `computePositions(rawTimelines, targetIdentity)`:
`timeline` is the list of fetched documents and `puuid` the resolved
target identity.  Line 52 builds the participant index (whose successful
value is always `indexRowsOf timeline`, used by the body); the rest is
`gupBody`. -/
def get_user_position (timeline : List TimelineDoc) (puuid : String) :
    Except String (List OutRow) :=
  match table_participant_id timeline with
  | Except.error m => Except.error m
  | Except.ok _dfP => gupBody timeline puuid

/-! ### Basic lemmas about the embedding -/

/-- Membership survives first-occurrence deduplication, both ways. -/
lemma mem_dedupFirst {α : Type} [DecidableEq α] (a : α) (l : List α) :
    a ∈ dedupFirst l ↔ a ∈ l := by
  have key : ∀ (l acc : List α),
      a ∈ l.foldl (fun acc x => if x ∈ acc then acc else acc ++ [x]) acc ↔
        a ∈ acc ∨ a ∈ l := by
    intro l
    induction l with
    | nil => intro acc; simp
    | cons x l ih =>
      intro acc
      rw [List.foldl_cons, ih]
      by_cases hx : x ∈ acc
      · simp only [if_pos hx, List.mem_cons]
        constructor
        · rintro (h | h)
          · exact Or.inl h
          · exact Or.inr (Or.inr h)
        · rintro (h | rfl | h)
          · exact Or.inl h
          · exact Or.inl hx
          · exact Or.inr h
      · simp only [if_neg hx, List.mem_append, List.mem_singleton, List.mem_cons]
        tauto
  have h0 := key l []
  simpa [dedupFirst] using h0

/-- Whenever the participant index builder succeeds, its value is
`indexRowsOf`. -/
lemma table_participant_id_ok {tl : List TimelineDoc} {rows : List IndexRow}
    (h : table_participant_id tl = Except.ok rows) : rows = indexRowsOf tl := by
  unfold table_participant_id at h
  split_ifs at h
  exact (Except.ok.inj h).symm

/-- An index-builder failure propagates to the whole pipeline call. -/
lemma gup_error_of_tpi_error {tl : List TimelineDoc} {m : String} (p : String)
    (h : table_participant_id tl = Except.error m) :
    get_user_position tl p = Except.error m := by
  unfold get_user_position
  rw [h]

/-- When the index builder succeeds, the call reduces to the body. -/
lemma gup_of_tpi_ok {tl : List TimelineDoc} {dfP : List IndexRow} (p : String)
    (h : table_participant_id tl = Except.ok dfP) :
    get_user_position tl p = gupBody tl p := by
  unfold get_user_position
  rw [h]

/-- A successful pipeline call returns exactly the normalized rows of the
target player's pivot keys. -/
lemma gup_ok {tl : List TimelineDoc} {p : String} {out : List OutRow}
    (h : get_user_position tl p = Except.ok out) :
    out = (selKeysOf tl p).map (outRowOf tl) := by
  cases htp : table_participant_id tl with
  | error m =>
    rw [gup_error_of_tpi_error p htp] at h
    exact absurd h (by simp)
  | ok dfP =>
    rw [gup_of_tpi_ok p htp] at h
    unfold gupBody at h
    split_ifs at h
    exact (Except.ok.inj h).symm

/-- Membership in the match list of one event's join key. -/
lemma mem_matchesOf {idx : List IndexRow} {fr : FlatRow} {ir : IndexRow} :
    ir ∈ matchesOf idx fr ↔
      ir ∈ idx ∧ ir.participantId = fr.participantId ∧ ir.matchId = fr.matchId := by
  simp [matchesOf, List.mem_filter]

/-- Every joined row stems from one flat event, either unmatched (null
identity) or matched with one index row whose identity it carries. -/
lemma mem_mergeRows {flat : List FlatRow} {idx : List IndexRow} {jr : JoinedRow}
    (h : jr ∈ mergeRows flat idx) :
    ∃ fr ∈ flat,
      (matchesOf idx fr = [] ∧ jr = joinWith fr none) ∨
      (∃ ir ∈ matchesOf idx fr, jr = joinWith fr ir.puuid) := by
  unfold mergeRows at h
  rw [List.mem_flatMap] at h
  obtain ⟨fr, hfr, hmem⟩ := h
  refine ⟨fr, hfr, ?_⟩
  by_cases hms : (matchesOf idx fr).isEmpty = true
  · rw [if_pos hms] at hmem
    left
    exact ⟨List.isEmpty_iff.mp hms, List.mem_singleton.mp hmem⟩
  · rw [if_neg hms] at hmem
    right
    rw [List.mem_map] at hmem
    obtain ⟨ir, hir, rfl⟩ := hmem
    exact ⟨ir, hir, rfl⟩

/-- An event with no index match survives the left join, with null
identity. -/
lemma joinNone_mem_mergeRows {flat : List FlatRow} {idx : List IndexRow}
    {fr : FlatRow} (hfr : fr ∈ flat) (hms : matchesOf idx fr = []) :
    joinWith fr none ∈ mergeRows flat idx := by
  unfold mergeRows
  rw [List.mem_flatMap]
  refine ⟨fr, hfr, ?_⟩
  rw [hms]
  simp

/-! ### Claim C2: the normalization map -/

/-- Claim C2 (confirmed).  The normalization applied to both axes is the
affine map `raw ↦ 10 + (raw - 335) * 800 / 14700`: it sends 335 to exactly
10 and 15035 to exactly 810, `norma_y` is the same map as `norma_x`, and
for any two raw values it preserves spacing
(`norma(a) - norma(b) = (a - b) * 800 / 14700`) and strict order.
(The model computes in exact rational arithmetic.) -/
theorem norma_affine_correct :
    norma_x 335 = 10 ∧ norma_x 15035 = 810 ∧ norma_y = norma_x ∧
    ∀ a b : ℚ, norma_x a - norma_x b = (a - b) * 800 / 14700 ∧
      (a < b → norma_x a < norma_x b) := by
  refine ⟨by norm_num [norma_x], by norm_num [norma_x], funext fun y => rfl, ?_⟩
  intro a b
  constructor
  · unfold norma_x; ring
  · intro hab
    have key : norma_x b - norma_x a = (b - a) * 800 / 14700 := by
      unfold norma_x; ring
    have hba : (0 : ℚ) < b - a := by linarith
    have pos : (0 : ℚ) < (b - a) * 800 / 14700 :=
      div_pos (mul_pos hba (by norm_num)) (by norm_num)
    linarith

/-- Witness for C2: the order-preservation hypothesis discharged at the
concrete raw values 0 and 1. -/
theorem norma_affine_correct_witness : norma_x 0 < norma_x 1 :=
  (norma_affine_correct.2.2.2 0 1).2 (by norm_num)

/-! ### Claim C9: determinism -/

/-- Claim C9 (confirmed).  The pipeline transform is deterministic: two
runs of `get_user_position` on identical input documents and the same
target identity yield identical results.  (The embedding is a pure
function of its inputs, mirroring the side-effect-free pandas transform.) -/
theorem pipeline_deterministic (timeline : List TimelineDoc) (p : String)
    (r1 r2 : Except String (List OutRow))
    (h1 : get_user_position timeline p = r1)
    (h2 : get_user_position timeline p = r2) : r1 = r2 :=
  h1.symm.trans h2

/-- Concrete input for the C9 witness: one match, one participant, one
position frame. -/
def docsDet : List TimelineDoc :=
  [⟨"M1", some [⟨some 1, some "P1"⟩],
    some [⟨60000, [("participantFrames.1.position.x", 1000),
                   ("participantFrames.1.position.y", 2000)]⟩]⟩]

/-- Witness for C9: both runs on `docsDet` produce the same concrete
table. -/
theorem pipeline_deterministic_witness :
    (Except.ok [(⟨"M1", 60000, some (norma_x 1000), some (norma_y 2000)⟩ : OutRow)]
      : Except String (List OutRow)) =
    Except.ok [(⟨"M1", 60000, some (norma_x 1000), some (norma_y 2000)⟩ : OutRow)] :=
  pipeline_deterministic docsDet "P1" _ _ rfl rfl

/-! ### Claim C8: malformed documents abort the call -/

/-- Claim C8 (confirmed).  If any input document lacks the roster region
(`info.participants`) or the frames region (`info.frames`), the pipeline
call fails with an error and returns no table: `pd.json_normalize` with a
`record_path` raises `KeyError` on the first document missing the path,
before any output is produced. -/
theorem malformed_doc_errors (timeline : List TimelineDoc) (p : String)
    (h : ∃ d ∈ timeline, d.participants = none ∨ d.frames = none) :
    ∃ m, get_user_position timeline p = Except.error m := by
  obtain ⟨d, hd, hcase⟩ := h
  by_cases hp : (timeline.all fun d => d.participants.isSome) = true
  · by_cases hpid : anyPidPresent timeline = true
    · have htpi : table_participant_id timeline = Except.ok (indexRowsOf timeline) := by
        unfold table_participant_id
        rw [if_pos hp, if_pos hpid]
      have hfn : d.frames = none := by
        cases hcase with
        | inl hpn =>
          exfalso
          have := List.all_eq_true.mp hp d hd
          rw [hpn] at this
          simp at this
        | inr hfn => exact hfn
      have hnf : ¬ ((timeline.all fun d => d.frames.isSome) = true) := by
        intro hft
        have := List.all_eq_true.mp hft d hd
        rw [hfn] at this
        simp at this
      refine ⟨"KeyError: info.frames", ?_⟩
      rw [gup_of_tpi_ok p htpi]
      unfold gupBody
      rw [if_neg hnf]
    · have htpi : table_participant_id timeline = Except.error "KeyError: participantId" := by
        unfold table_participant_id
        rw [if_pos hp, if_neg hpid]
      exact ⟨_, gup_error_of_tpi_error p htpi⟩
  · have htpi : table_participant_id timeline =
        Except.error "KeyError: info.participants" := by
      unfold table_participant_id
      rw [if_neg hp]
    exact ⟨_, gup_error_of_tpi_error p htpi⟩

/-- Concrete input for the C8 witness: a document with both regions
missing, next to a well-formed one. -/
def docsMalformed : List TimelineDoc :=
  [⟨"M0", none, none⟩,
   ⟨"M1", some [⟨some 1, some "P1"⟩],
    some [⟨60000, [("participantFrames.1.position.x", 1000),
                   ("participantFrames.1.position.y", 2000)]⟩]⟩]

/-- Witness for C8: the malformed document aborts the whole call even
though a well-formed timeline follows it. -/
theorem malformed_doc_errors_witness :
    ∃ m, get_user_position docsMalformed "P1" = Except.error m :=
  malformed_doc_errors docsMalformed "P1"
    ⟨⟨"M0", none, none⟩, by simp [docsMalformed], Or.inl rfl⟩

/-! ### Claim C10: absent target player raises a lookup error -/

/-- Claim C10 (confirmed).  When every structural stage succeeds but the
target `puuid` labels no pivot row, `.loc[puuid]` raises a lookup
(`KeyError`) error instead of returning an empty table. -/
theorem missing_target_raises (timeline : List TimelineDoc) (p : String)
    (hp : (timeline.all fun d => d.participants.isSome) = true)
    (hpid : anyPidPresent timeline = true)
    (hf : (timeline.all fun d => d.frames.isSome) = true)
    (hnd : ((positionRowsOf timeline).map pivotKeyCol).Nodup)
    (hsel : selKeysOf timeline p = []) :
    get_user_position timeline p = Except.error "KeyError: puuid not in pivot index" := by
  have htpi : table_participant_id timeline = Except.ok (indexRowsOf timeline) := by
    unfold table_participant_id
    rw [if_pos hp, if_pos hpid]
  rw [gup_of_tpi_ok p htpi]
  unfold gupBody
  rw [if_pos hf, if_pos hnd, if_pos (by rw [hsel]; rfl)]

/-- Concrete input for the C10 witness: player "A" has positions, the
queried player "B" has none. -/
def docsNoTarget : List TimelineDoc :=
  [⟨"M1", some [⟨some 1, some "A"⟩],
    some [⟨60000, [("participantFrames.1.position.x", 5),
                   ("participantFrames.1.position.y", 6)]⟩]⟩]

/-- Witness for C10: querying "B" on `docsNoTarget` raises the lookup
error. -/
theorem missing_target_raises_witness :
    get_user_position docsNoTarget "B" =
      Except.error "KeyError: puuid not in pivot index" :=
  missing_target_raises docsNoTarget "B" rfl rfl rfl (by decide) rfl

/-! ### Claim C4: identity scoping -/

/-- Claim C4 (confirmed).  Every output row is the normalized pivot row of
a pivot key whose global identity equals the queried player's resolved
`puuid`; the pipeline never emits another participant's positions.  The
scoping happens only at the final `.loc` selection: the upstream stages
(`indexRowsOf`, `flatRowsOf`, `joinedRowsOf`, `pivotKeysOf`) do not take
the target identity as an argument at all. -/
theorem output_scoped_to_target (timeline : List TimelineDoc) (p : String)
    (out : List OutRow) (h : get_user_position timeline p = Except.ok out) :
    ∀ o ∈ out, ∃ k ∈ pivotKeysOf timeline, k.1 = some p ∧ o = outRowOf timeline k := by
  intro o ho
  rw [gup_ok h, List.mem_map] at ho
  obtain ⟨k, hk, rfl⟩ := ho
  unfold selKeysOf at hk
  rw [List.mem_filter] at hk
  exact ⟨k, hk.1, of_decide_eq_true hk.2, rfl⟩

/-- Concrete input for the C4/C5 witnesses: two rostered players with
positions, plus one event for the unrostered participant "9". -/
def docsScope : List TimelineDoc :=
  [⟨"M1", some [⟨some 1, some "P1"⟩, ⟨some 2, some "P2"⟩],
    some [⟨60000, [("participantFrames.1.position.x", 1000),
                   ("participantFrames.1.position.y", 2000),
                   ("participantFrames.2.position.x", 3000),
                   ("participantFrames.2.position.y", 4000),
                   ("participantFrames.9.position.x", 7)]⟩]⟩]

/-- Witness for C4: on `docsScope`, querying "P1" yields one row, and it
comes from a pivot key carrying identity "P1". -/
theorem output_scoped_to_target_witness :
    ∃ k ∈ pivotKeysOf docsScope, k.1 = some "P1" ∧
      (⟨"M1", 60000, some (norma_x 1000), some (norma_y 2000)⟩ : OutRow) =
        outRowOf docsScope k :=
  output_scoped_to_target docsScope "P1"
    [⟨"M1", 60000, some (norma_x 1000), some (norma_y 2000)⟩] rfl
    ⟨"M1", 60000, some (norma_x 1000), some (norma_y 2000)⟩ (List.mem_singleton.mpr rfl)

/-! ### Claim C5: permissive left join, strict output -/

/-- Claim C5 (confirmed).  The identity join is a left join on
`(participantId, matchId)`: a flattened event with no index match survives
the join with a null identity; yet every output row of a successful call
traces back to a position row whose identity is the target's and whose
`(matchId, participantId)` pair has an entry in the participant index
built from the same input (carrying that identity). -/
theorem join_soundness (timeline : List TimelineDoc) (p : String)
    (out : List OutRow) (h : get_user_position timeline p = Except.ok out) :
    (∀ fr ∈ flatRowsOf timeline, matchesOf (indexRowsOf timeline) fr = [] →
        joinWith fr none ∈ joinedRowsOf timeline) ∧
    (∀ o ∈ out, ∃ jr ∈ positionRowsOf timeline, jr.puuid = some p ∧
        jr.matchId = o.matchId ∧ jr.timestamp = o.timestamp ∧
        ∃ ir ∈ indexRowsOf timeline, ir.participantId = jr.participantId ∧
          ir.matchId = jr.matchId ∧ ir.puuid = some p) := by
  constructor
  · intro fr hfr hms
    exact joinNone_mem_mergeRows hfr hms
  · intro o ho
    rw [gup_ok h, List.mem_map] at ho
    obtain ⟨k, hk, rfl⟩ := ho
    unfold selKeysOf at hk
    rw [List.mem_filter] at hk
    have hkp : k.1 = some p := of_decide_eq_true hk.2
    have hk1 : k ∈ pivotKeysOf timeline := hk.1
    unfold pivotKeysOf at hk1
    rw [mem_dedupFirst, List.mem_map] at hk1
    obtain ⟨jr, hjr, hkey⟩ := hk1
    subst hkey
    have hpu : jr.puuid = some p := hkp
    refine ⟨jr, hjr, hpu, rfl, rfl, ?_⟩
    have hjr2 : jr ∈ joinedRowsOf timeline := by
      unfold positionRowsOf at hjr
      exact (List.mem_filter.mp hjr).1
    obtain ⟨fr, hfr, hcases⟩ := mem_mergeRows hjr2
    cases hcases with
    | inl hnone =>
      exfalso
      rw [hnone.2] at hpu
      simp [joinWith] at hpu
    | inr hsome =>
      obtain ⟨ir, hir, hjeq⟩ := hsome
      rw [mem_matchesOf] at hir
      refine ⟨ir, hir.1, ?_, ?_, ?_⟩
      · rw [hjeq]; exact hir.2.1
      · rw [hjeq]; exact hir.2.2
      · rw [hjeq] at hpu; exact hpu

/-- Witness for C5, instantiated at `docsScope` and its single "P1" output
row. -/
theorem join_soundness_witness :
    ∃ jr ∈ positionRowsOf docsScope, jr.puuid = some "P1" ∧
      jr.matchId = "M1" ∧ jr.timestamp = 60000 ∧
      ∃ ir ∈ indexRowsOf docsScope, ir.participantId = jr.participantId ∧
        ir.matchId = jr.matchId ∧ ir.puuid = some "P1" :=
  (join_soundness docsScope "P1"
      [⟨"M1", 60000, some (norma_x 1000), some (norma_y 2000)⟩] rfl).2
    ⟨"M1", 60000, some (norma_x 1000), some (norma_y 2000)⟩ (List.mem_singleton.mpr rfl)

/-! ### Claim C1: partial position groups -/

/-- Concrete input for the C1 counterexample: participant 1 reports both
coordinates at 60000 but only x at 120000 (the frame lacks the y key, so
the melted y column holds NaN there). -/
def docsIncomplete : List TimelineDoc :=
  [⟨"M1", some [⟨some 1, some "P1"⟩],
    some [⟨60000, [("participantFrames.1.position.x", 1000),
                   ("participantFrames.1.position.y", 2000)]⟩,
          ⟨120000, [("participantFrames.1.position.x", 300)]⟩]⟩]

/-- Claim C1 counterexample.  The claim says a `(puuid, matchId,
timestamp)` group with an event for only one of the submetrics x and y is
dropped entirely by the pivot and yields no output row.  On `docsIncomplete`
the 120000 group has only x, yet the pipeline emits a second output row
for it — with a null (NaN, hence non-numeric) y cell: `DataFrame.pivot`
keeps incomplete groups and fills the missing cell with NaN. -/
theorem pivot_incomplete_counterexample :
    get_user_position docsIncomplete "P1" =
      Except.ok [⟨"M1", 60000, some (norma_x 1000), some (norma_y 2000)⟩,
                 ⟨"M1", 120000, some (norma_x 300), none⟩] ∧
    (⟨"M1", 120000, some (norma_x 300), none⟩ : OutRow).y = none :=
  ⟨rfl, rfl⟩

/-- Claim C1 amended (proved).  A group lacking either submetric is NOT
dropped: the successful output is exactly one row per pivot key of the
target player, and every such key — including keys whose x or y pivot
cell is missing — yields an output row; the missing coordinate is kept as
null (NaN) and the normalization maps null to null (see `outRowOf`). -/
theorem pivot_incomplete_amended (timeline : List TimelineDoc) (p : String)
    (out : List OutRow) (h : get_user_position timeline p = Except.ok out) :
    out = (selKeysOf timeline p).map (outRowOf timeline) ∧
    ∀ k ∈ pivotKeysOf timeline, k.1 = some p → outRowOf timeline k ∈ out := by
  refine ⟨gup_ok h, ?_⟩
  intro k hk hkp
  rw [gup_ok h, List.mem_map]
  refine ⟨k, ?_, rfl⟩
  unfold selKeysOf
  rw [List.mem_filter]
  exact ⟨hk, decide_eq_true hkp⟩

/-- Witness for the amended C1: the x-only 120000 group of `docsIncomplete`
yields an output row. -/
theorem pivot_incomplete_amended_witness :
    outRowOf docsIncomplete (some "P1", "M1", 120000) ∈
      [(⟨"M1", 60000, some (norma_x 1000), some (norma_y 2000)⟩ : OutRow),
       ⟨"M1", 120000, some (norma_x 300), none⟩] :=
  (pivot_incomplete_amended docsIncomplete "P1"
      [⟨"M1", 60000, some (norma_x 1000), some (norma_y 2000)⟩,
       ⟨"M1", 120000, some (norma_x 300), none⟩] rfl).2
    (some "P1", "M1", 120000) (by decide) rfl

/-! ### Claim C6: roster entries with missing fields -/

/-- Concrete input for the C6 counterexample: the second roster entry
lacks `puuid`. -/
def docsRoster : List TimelineDoc :=
  [⟨"M1", some [⟨some 1, some "A"⟩, ⟨some 2, none⟩], some []⟩]

/-- Claim C6 counterexample.  The claim says a roster entry missing
`participantId` or `puuid` is excluded from the index.  On `docsRoster`
the entry with participantId 2 has no `puuid`, yet the builder returns it
as an index row (with a null puuid): `json_normalize` fills NaN for
missing record keys and nothing drops such rows. -/
theorem roster_missing_field_counterexample :
    table_participant_id docsRoster =
      Except.ok [⟨"1", some "A", "M1"⟩, ⟨"2", none, "M1"⟩] ∧
    (⟨"2", none, "M1"⟩ : IndexRow) ∈
      [(⟨"1", some "A", "M1"⟩ : IndexRow), ⟨"2", none, "M1"⟩] :=
  ⟨rfl, by simp⟩

/-- Claim C6 amended (proved).  Roster entries missing `participantId` or
`puuid` are retained, not excluded: provided every document has a roster
region and at least one entry anywhere carries `participantId` (otherwise
pandas raises `KeyError`), the builder succeeds and every roster entry —
complete or not — yields exactly one index row, with a missing `puuid`
kept as null and a missing `participantId` rendered as the string `"nan"`
(integer ids then render in float form, `"1.0"`, because the pandas column
is promoted to float64). -/
theorem roster_index_total (timeline : List TimelineDoc)
    (hp : (timeline.all fun d => d.participants.isSome) = true)
    (hpid : anyPidPresent timeline = true) :
    table_participant_id timeline = Except.ok (indexRowsOf timeline) ∧
    ∀ e ∈ indexEntriesOf timeline,
      (⟨pidStr (allPidPresent timeline) e.2.participantId, e.2.puuid, e.1⟩ : IndexRow) ∈
        indexRowsOf timeline := by
  constructor
  · unfold table_participant_id
    rw [if_pos hp, if_pos hpid]
  · intro e he
    unfold indexRowsOf
    rw [List.mem_map]
    exact ⟨e, he, rfl⟩

/-- Concrete input for the C6 witness: one entry lacks `participantId`,
one is complete. -/
def docsRosterMix : List TimelineDoc :=
  [⟨"M1", some [⟨some 1, some "A"⟩, ⟨none, some "B"⟩], some []⟩]

/-- Witness for the amended C6: the entry missing `participantId` still
yields an index row (keyed by the string "nan"). -/
theorem roster_index_total_witness :
    (⟨pidStr (allPidPresent docsRosterMix) none, some "B", "M1"⟩ : IndexRow) ∈
      indexRowsOf docsRosterMix :=
  (roster_index_total docsRosterMix rfl rfl).2 ("M1", ⟨none, some "B"⟩) (by decide)

/-! ### Claim C3: the shape of the decomposition rule

`joinDots` denotes a dotted name assembled from its segments, as the
flattened JSON keys of the frame table are. -/

/-- Assemble segments into a dotted name. -/
def joinDots : List (List Char) → List Char
  | [] => []
  | [g] => g
  | g :: h :: t => g ++ '.' :: joinDots (h :: t)

lemma isWordChar_dot_false : isWordChar '.' = false := by decide

lemma word_ne_newline {c : Char} (h : isWordChar c = true) : (c != '\n') = true := by
  cases hc : c == '\n'
  · simp [bne, hc]
  · exfalso
    rw [eq_of_beq hc] at h
    exact absurd h (by decide)

/-- `takeWhile` keeps a list all of whose elements satisfy the predicate. -/
lemma takeWhile_of_all {α : Type} {p : α → Bool} :
    ∀ {l : List α}, (∀ x ∈ l, p x = true) → l.takeWhile p = l := by
  intro l
  induction l with
  | nil => intro _; rfl
  | cons x l ih =>
    intro h
    rw [List.takeWhile_cons_of_pos (h x (List.mem_cons_self x l))]
    rw [ih fun y hy => h y (List.mem_cons_of_mem x hy)]

/-- Splitting a word prefix followed by a literal dot. -/
lemma takeWhile_word (a t : List Char) (h : ∀ c ∈ a, isWordChar c = true) :
    (a ++ '.' :: t).takeWhile isWordChar = a ∧
    (a ++ '.' :: t).dropWhile isWordChar = '.' :: t := by
  induction a with
  | nil =>
    constructor
    · rw [List.nil_append, List.takeWhile_cons_of_neg (by simp [isWordChar_dot_false])]
    · rw [List.nil_append, List.dropWhile_cons_of_neg (by simp [isWordChar_dot_false])]
  | cons c a ih =>
    have hc : isWordChar c = true := h c (List.mem_cons_self c a)
    have ha : ∀ x ∈ a, isWordChar x = true := fun x hx => h x (List.mem_cons_of_mem c hx)
    obtain ⟨ih1, ih2⟩ := ih ha
    constructor
    · rw [List.cons_append, List.takeWhile_cons_of_pos hc, ih1]
    · rw [List.cons_append, List.dropWhile_cons_of_pos hc, ih2]

/-- `eatSeg` succeeds on a nonempty word prefix followed by a dot. -/
lemma eatSeg_word (a t : List Char) (ha : a ≠ [])
    (h : ∀ c ∈ a, isWordChar c = true) : eatSeg (a ++ '.' :: t) = some (a, t) := by
  obtain ⟨h1, h2⟩ := takeWhile_word a t h
  cases a with
  | nil => exact absurd rfl ha
  | cons c a' =>
    unfold eatSeg
    rw [h1, h2]
    rfl

/-- What a successful `eatSeg` says about its input. -/
lemma eatSeg_some {cs p t} (h : eatSeg cs = some (p, t)) :
    cs = p ++ '.' :: t ∧ p ≠ [] := by
  unfold eatSeg at h
  split at h
  · rename_i p' ps t' htw hdw
    injection h with h'
    injection h' with hp ht
    subst hp
    subst ht
    refine ⟨?_, by simp⟩
    rw [← List.takeWhile_append_dropWhile (p := isWordChar) (l := cs), htw, hdw]
  · exact absurd h (by simp)

/-- A successful anchored match needs at least three dots. -/
lemma count_dot_of_matchAt {cs : List Char} {r} (h : matchAt cs = some r) :
    3 ≤ cs.count '.' := by
  cases h0 : eatSeg cs with
  | none => simp [matchAt, h0] at h
  | some pt0 =>
    obtain ⟨p0, t0⟩ := pt0
    cases h1 : eatSeg t0 with
    | none => simp [matchAt, h0, h1] at h
    | some pt1 =>
      obtain ⟨p1, t1⟩ := pt1
      cases h2 : eatSeg t1 with
      | none => simp [matchAt, h0, h1, h2] at h
      | some pt2 =>
        obtain ⟨p2, t2⟩ := pt2
        obtain ⟨e0, -⟩ := eatSeg_some h0
        obtain ⟨e1, -⟩ := eatSeg_some h1
        obtain ⟨e2, -⟩ := eatSeg_some h2
        rw [e0, e1, e2]
        simp only [List.count_append, List.count_cons_self]
        omega

/-- A successful search needs at least three dots in the string. -/
lemma count_dot_of_searchExtract {cs : List Char} {r}
    (h : searchExtract cs = some r) : 3 ≤ cs.count '.' := by
  induction cs with
  | nil => simp [searchExtract] at h
  | cons c cs ih =>
    cases hm : matchAt (c :: cs) with
    | some r2 => exact count_dot_of_matchAt hm
    | none =>
      rw [searchExtract, hm] at h
      have := ih h
      rw [List.count_cons]
      omega

/-- A dotted name whose head segment is nonempty is nonempty. -/
lemma joinDots_ne_nil {a : List (List Char)} {g : List Char}
    (hg : g ≠ []) : joinDots (g :: a) ≠ [] := by
  cases a with
  | nil => simpa [joinDots] using hg
  | cons g2 t => simp [joinDots]

/-- Every character of a dotted name is a dot or lies in some segment. -/
lemma mem_joinDots {c : Char} :
    ∀ {segs : List (List Char)}, c ∈ joinDots segs → c = '.' ∨ ∃ g ∈ segs, c ∈ g := by
  intro segs
  induction segs with
  | nil => intro h; exact absurd h (List.not_mem_nil c)
  | cons g gs ih =>
    cases gs with
    | nil =>
      intro h
      exact Or.inr ⟨g, List.mem_cons_self g [], h⟩
    | cons g2 t =>
      intro h
      rw [joinDots, List.mem_append] at h
      cases h with
      | inl h => exact Or.inr ⟨g, List.mem_cons_self .., h⟩
      | inr h =>
        rw [List.mem_cons] at h
        cases h with
        | inl h => exact Or.inl h
        | inr h =>
          cases ih h with
          | inl h => exact Or.inl h
          | inr h =>
            obtain ⟨g', hg', hc⟩ := h
            exact Or.inr ⟨g', List.mem_cons_of_mem _ hg', hc⟩

/-- Dot count of a dotted name over word-only segments. -/
lemma count_dot_joinDots :
    ∀ (segs : List (List Char)), (∀ g ∈ segs, ∀ c ∈ g, isWordChar c = true) →
      (joinDots segs).count '.' = segs.length - 1 := by
  intro segs
  induction segs with
  | nil => intro _; simp [joinDots]
  | cons g gs ih =>
    intro hw
    have hg0 : g.count '.' = 0 := by
      rw [List.count_eq_zero]
      intro hc
      exact absurd (hw g (List.mem_cons_self ..) '.' hc) (by decide)
    cases gs with
    | nil => simpa [joinDots] using hg0
    | cons g2 t =>
      rw [joinDots, List.count_append, List.count_cons_self, hg0,
        ih fun g hg => hw g (List.mem_cons_of_mem _ hg)]
      simp

/-- A successful anchored match makes the unanchored search succeed with
the same result. -/
lemma searchExtract_of_matchAt {cs : List Char} {r} (hne : cs ≠ [])
    (hm : matchAt cs = some r) : searchExtract cs = some r := by
  cases cs with
  | nil => exact absurd rfl hne
  | cons c cs' => rw [searchExtract, hm]

/-- Claim C3 amended (proved).  On a melted column name made of nonempty
word-character segments joined by dots, the extraction succeeds exactly
when there are AT LEAST four segments — the fourth capture group `.+` is
greedy and absorbs any further dotted tail into the submetric — and
returns the first three segments plus the joined remainder; a name with
fewer than four segments yields `none`, so the flattener drops its melted
rows silently (`filterMap` in `flatRowsOf`) and emits one flat event per
matching column. -/
theorem regex_extract_spec (segs : List (List Char))
    (h1 : ∀ g ∈ segs, g ≠ [])
    (h2 : ∀ g ∈ segs, ∀ c ∈ g, isWordChar c = true) :
    extractParts (String.mk (joinDots segs)) =
      match segs with
      | a :: b :: c :: d :: t =>
        some (String.mk a, String.mk b, String.mk c, String.mk (joinDots (d :: t)))
      | _ => none := by
  have hshort : segs.length < 4 →
      extractParts (String.mk (joinDots segs)) = none := by
    intro hlen
    cases hse : searchExtract (joinDots segs) with
    | none => exact hse
    | some r =>
      exfalso
      have hcnt := count_dot_of_searchExtract hse
      rw [count_dot_joinDots segs h2] at hcnt
      omega
  match segs with
  | [] => exact hshort (by simp)
  | [a] => exact hshort (by simp)
  | [a, b] => exact hshort (by simp)
  | [a, b, c] => exact hshort (by simp)
  | a :: b :: c :: d :: t =>
    have hm : matchAt (joinDots (a :: b :: c :: d :: t)) =
        some (String.mk a, String.mk b, String.mk c, String.mk (joinDots (d :: t))) := by
      have e0 : eatSeg (joinDots (a :: b :: c :: d :: t)) =
          some (a, joinDots (b :: c :: d :: t)) := by
        rw [joinDots]
        exact eatSeg_word a _ (h1 a (by simp)) (h2 a (by simp))
      have e1 : eatSeg (joinDots (b :: c :: d :: t)) =
          some (b, joinDots (c :: d :: t)) := by
        rw [joinDots]
        exact eatSeg_word b _ (h1 b (by simp)) (h2 b (by simp))
      have e2 : eatSeg (joinDots (c :: d :: t)) = some (c, joinDots (d :: t)) := by
        rw [joinDots]
        exact eatSeg_word c _ (h1 c (by simp)) (h2 c (by simp))
      have e3 : (joinDots (d :: t)).takeWhile (fun c => c != '\n') =
          joinDots (d :: t) := by
        apply takeWhile_of_all
        intro x hx
        cases mem_joinDots hx with
        | inl h => rw [h]; decide
        | inr h =>
          obtain ⟨g, hg, hxg⟩ := h
          exact word_ne_newline (h2 g (List.mem_cons_of_mem _ (List.mem_cons_of_mem _
            (List.mem_cons_of_mem _ hg))) x hxg)
      have e4 : joinDots (d :: t) ≠ [] := joinDots_ne_nil (h1 d (by simp))
      cases hjd : joinDots (d :: t) with
      | nil => exact absurd hjd e4
      | cons x xs =>
        rw [hjd] at e3
        simp only [matchAt, e0, e1, e2, hjd, e3]
    have hne : joinDots (a :: b :: c :: d :: t) ≠ [] :=
      joinDots_ne_nil (h1 a (by simp))
    exact searchExtract_of_matchAt hne hm

/-- Concrete input for the C3 counterexample: a melted column whose name
has five dot-separated segments. -/
def docsFive : List TimelineDoc :=
  [⟨"M1", some [⟨some 1, some "A"⟩], some [⟨7, [("a.b.c.d.e", 5)]⟩]⟩]

/-- Claim C3 counterexample.  The claim says a column name with more than
four dot-separated segments yields no event.  The five-segment name
`a.b.c.d.e` matches (the fourth group absorbs the tail, `metric2 =
"d.e"`), so the flattener DOES emit an event for it. -/
theorem extract_shape_counterexample :
    table_frames docsFive = Except.ok [⟨7, "M1", "a", "b", "c", "d.e", some 5⟩] ∧
    extractParts "a.b.c.d.e" = some ("a", "b", "c", "d.e") :=
  ⟨rfl, rfl⟩

/-- Witness for the amended C3: the characterization applied to a concrete
four-segment name. -/
theorem regex_extract_spec_witness :
    extractParts (String.mk (joinDots [['p'], ['1'], ['m'], ['s']])) =
      some (String.mk ['p'], String.mk ['1'], String.mk ['m'],
        String.mk (joinDots [['s']])) :=
  regex_extract_spec [['p'], ['1'], ['m'], ['s']] (by decide) (by decide)

/-! ### Claim C7: duplicate participant index entries -/

/-- Concrete input for the C7 counterexample: two roster entries share
participantId 1 within match M1 but carry different identities. -/
def docsDup : List TimelineDoc :=
  [⟨"M1", some [⟨some 1, some "A"⟩, ⟨some 1, some "B"⟩],
    some [⟨60000, [("participantFrames.1.position.x", 100),
                   ("participantFrames.1.position.y", 200)]⟩]⟩]

/-- Claim C7 counterexample.  The claim says two index entries for the
same `(matchId, participantId)` key make the call fail.  On `docsDup` the
key `(M1, "1")` has two entries with distinct puuids: the left merge
duplicates each event under both identities, the pivot index stays
duplicate-free (the puuid level differs), and the call SUCCEEDS for
either target — the duplicates are silently resolved into output rows for
both players rather than surfaced. -/
theorem duplicate_index_counterexample :
    get_user_position docsDup "A" =
      Except.ok [⟨"M1", 60000, some (norma_x 100), some (norma_y 200)⟩] ∧
    get_user_position docsDup "B" =
      Except.ok [⟨"M1", 60000, some (norma_x 100), some (norma_y 200)⟩] :=
  ⟨rfl, rfl⟩

/-- Claim C7 amended (proved).  Duplicate index entries for the same
`(matchId, participantId)` key surface as an error only when the

duplicated entries carry the SAME identity and the key has a position
event: the merge then duplicates that event into identical
`(puuid, matchId, timestamp, metric2)` pivot pairs and
`DataFrame.pivot` raises its duplicate-entries `ValueError` (entries with
distinct identities are instead silently resolved; see the
counterexample). -/
theorem duplicate_index_amended (timeline : List TimelineDoc) (p q : String)
    (ir1 ir2 : IndexRow) (l1 l2 l3 : List IndexRow) (fr : FlatRow)
    (hidx : indexRowsOf timeline = l1 ++ ir1 :: (l2 ++ ir2 :: l3))
    (hk1 : ir1.participantId = fr.participantId) (hm1 : ir1.matchId = fr.matchId)
    (hk2 : ir2.participantId = fr.participantId) (hm2 : ir2.matchId = fr.matchId)
    (hq1 : ir1.puuid = some q) (hq2 : ir2.puuid = some q)
    (hfr : fr ∈ flatRowsOf timeline) (hmet : fr.metric = "position") :
    ∃ m, get_user_position timeline p = Except.error m := by
  cases htp : table_participant_id timeline with
  | error m => exact ⟨m, gup_error_of_tpi_error p htp⟩
  | ok dfP =>
    by_cases hf : (timeline.all fun d => d.frames.isSome) = true
    · have hpred1 : decide (ir1.participantId = fr.participantId ∧
          ir1.matchId = fr.matchId) = true := decide_eq_true ⟨hk1, hm1⟩
      have hpred2 : decide (ir2.participantId = fr.participantId ∧
          ir2.matchId = fr.matchId) = true := decide_eq_true ⟨hk2, hm2⟩
      have hsub0 : List.Sublist [ir1, ir2] (matchesOf (indexRowsOf timeline) fr) := by
        unfold matchesOf
        rw [hidx, List.filter_append,
          List.filter_cons_of_pos (p := fun ir : IndexRow =>
            decide (ir.participantId = fr.participantId ∧ ir.matchId = fr.matchId)) hpred1,
          List.filter_append,
          List.filter_cons_of_pos (p := fun ir : IndexRow =>
            decide (ir.participantId = fr.participantId ∧ ir.matchId = fr.matchId)) hpred2]
        refine List.Sublist.trans ?_ (List.sublist_append_right (List.filter _ l1) _)
        refine List.Sublist.cons₂ ir1 ?_
        refine List.Sublist.trans ?_ (List.sublist_append_right (List.filter _ l2) _)
        exact List.Sublist.cons₂ ir2 (List.nil_sublist _)
      have hirm : ir1 ∈ matchesOf (indexRowsOf timeline) fr :=
        hsub0.subset (by simp)
      have hne : (matchesOf (indexRowsOf timeline) fr).isEmpty = false := by
        cases hms : matchesOf (indexRowsOf timeline) fr with
        | nil => rw [hms] at hirm; exact absurd hirm (List.not_mem_nil _)
        | cons a l => rfl
      have hsub1 : List.Sublist [joinWith fr (some q), joinWith fr (some q)]
          ((matchesOf (indexRowsOf timeline) fr).map (fun ir => joinWith fr ir.puuid)) := by
        have hmap := List.Sublist.map (fun ir : IndexRow => joinWith fr ir.puuid) hsub0
        simpa [hq1, hq2] using hmap
      obtain ⟨s, t, hst⟩ := List.append_of_mem hfr
      have hsub2 : List.Sublist [joinWith fr (some q), joinWith fr (some q)]
          (joinedRowsOf timeline) := by
        unfold joinedRowsOf mergeRows
        simp only [hst, List.flatMap_append, List.flatMap_cons]
        refine List.Sublist.trans
          (List.Sublist.trans ?_ (List.sublist_append_left _ _))
          (List.sublist_append_right _ _)
        rw [if_neg (show ¬ ((matchesOf (indexRowsOf timeline) fr).isEmpty = true) from by
          rw [hne]; exact Bool.false_ne_true)]
        exact hsub1
      have hpos : (fun r : JoinedRow => decide (r.metric = "position"))
          (joinWith fr (some q)) = true :=
        decide_eq_true (show (joinWith fr (some q)).metric = "position" from hmet)
      have hsub3 : List.Sublist [pivotKeyCol (joinWith fr (some q)),
          pivotKeyCol (joinWith fr (some q))]
          ((positionRowsOf timeline).map pivotKeyCol) := by
        unfold positionRowsOf
        have hf2 := List.Sublist.filter
          (fun r : JoinedRow => decide (r.metric = "position")) hsub2
        have hfeq : List.filter (fun r : JoinedRow => decide (r.metric = "position"))
            [joinWith fr (some q), joinWith fr (some q)] =
            [joinWith fr (some q), joinWith fr (some q)] := by
          simp [List.filter_cons, hpos]
        rw [hfeq] at hf2
        exact List.Sublist.map pivotKeyCol hf2
      have hdup : ¬ ((positionRowsOf timeline).map pivotKeyCol).Nodup := by
        intro hnd
        have h2 := hnd.sublist hsub3
        simp at h2
      refine ⟨"ValueError: Index contains duplicate entries, cannot reshape", ?_⟩
      rw [gup_of_tpi_ok p htp]
      unfold gupBody
      rw [if_pos hf, if_neg hdup]
    · refine ⟨"KeyError: info.frames", ?_⟩
      rw [gup_of_tpi_ok p htp]
      unfold gupBody
      rw [if_neg hf]

/-- Concrete input for the C7 witness: the duplicated index entries carry
the SAME identity "A". -/
def docsDupSame : List TimelineDoc :=
  [⟨"M1", some [⟨some 1, some "A"⟩, ⟨some 1, some "A"⟩],
    some [⟨60000, [("participantFrames.1.position.x", 100),
                   ("participantFrames.1.position.y", 200)]⟩]⟩]

/-- Witness for the amended C7: same-identity duplicates make the call
fail on the pivot's duplicate check. -/
theorem duplicate_index_amended_witness :
    ∃ m, get_user_position docsDupSame "A" = Except.error m :=
  duplicate_index_amended docsDupSame "A" "A"
    ⟨"1", some "A", "M1"⟩ ⟨"1", some "A", "M1"⟩ [] [] []
    ⟨60000, "M1", "participantFrames", "1", "position", "x", some 100⟩
    rfl rfl rfl rfl rfl rfl rfl (by decide) rfl

end Heatmap
